import Mathlib

/-!
Verification of the PHP composer manifest parser
(`src/packagedcode/phpcomposer.py` of the scancode-toolkit repository).

The Python code is shallowly embedded: Python (unicode) strings become
lists of characters, JSON-decoded data becomes the inductive `JsonValue`,
and code that can raise a Python exception returns `Except PyError _`.
External collaborators that are out of scope for the module (the
filesystem predicates, the JSON decoder itself) appear as parameters of
the embedded `parse`.
-/

set_option autoImplicit false

namespace PhpComposer

/-- A Python (unicode) string, embedded as a list of characters. -/
abbrev PyStr := List Char

/-- Conversion from a Lean string literal to the embedded string type. -/
def pys (s : String) : PyStr := s.data

/-- Characters that Python's `str.strip()` removes: space, tab, newline,
carriage return, vertical tab and form feed. -/
def pyIsSpace (c : Char) : Bool :=
  c = ' ' || c = '\t' || c = '\n' || c = '\r' || c = Char.ofNat 11 || c = Char.ofNat 12

/-- Python `s.strip()`: remove leading and trailing whitespace. -/
def pyStrip (s : PyStr) : PyStr :=
  ((s.dropWhile pyIsSpace).reverse.dropWhile pyIsSpace).reverse

/-- Python `s.strip(chars)`: remove leading and trailing characters drawn
from the given set. -/
def pyStripChars (cs : List Char) (s : PyStr) : PyStr :=
  ((s.dropWhile cs.contains).reverse.dropWhile cs.contains).reverse

/-- Python `s.split(c)` for a one-character separator (no maxsplit):
`''.split('/') = ['']`, `'a/'.split('/') = ['a','']`. -/
def pySplitChar (c : Char) : PyStr → List PyStr
  | [] => [[]]
  | x :: xs =>
    if x = c then [] :: pySplitChar c xs
    else
      match pySplitChar c xs with
      | [] => [[x]]
      | y :: ys => (x :: y) :: ys

/-- Python `s.split(c, 1)` for a one-character separator: at most one
split, at the first occurrence of the separator. -/
def pySplit1Char (c : Char) : PyStr → List PyStr
  | [] => [[]]
  | x :: xs =>
    if x = c then [[], xs]
    else
      match pySplit1Char c xs with
      | [] => [[x]]
      | [y] => [x :: y]
      | y :: ys => (x :: y) :: ys

/-- Python `s.startswith(pre)`: prefix test. -/
def pyStartsWith : PyStr → PyStr → Bool
  | [], _ => true
  | _ :: _, [] => false
  | p :: ps, x :: xs => p == x && pyStartsWith ps xs

/-- Python `pat in s`: substring containment. -/
def pyIn (pat : PyStr) : PyStr → Bool
  | [] => pat.isEmpty
  | s@(_ :: t) => pyStartsWith pat s || pyIn pat t

/-- A raised Python exception, as far as this module can raise one. -/
inductive PyError where
  /-- `KeyError`: a failed dict (or `%`-format `locals()`) lookup. -/
  | keyError (key : PyStr)
  /-- `AttributeError`: the named attribute is missing on the receiver
  (for example `None.startswith`). -/
  | attributeError (attr : PyStr)
  /-- `ValueError`: for example tuple unpacking of a too-short list. -/
  | valueError (msg : PyStr)
  /-- An explicitly raised `Exception(msg)`. -/
  | exception (msg : PyStr)
deriving DecidableEq

/-- A JSON-like value as produced by `json.load(..., object_pairs_hook=OrderedDict)`:
objects keep their key order. Numbers are embedded as integers; no claim
depends on numeric values. -/
inductive JsonValue where
  | str (s : PyStr)
  | num (n : Int)
  | bool (b : Bool)
  | null
  | arr (elems : List JsonValue)
  | obj (fields : List (PyStr × JsonValue))

/-- Python truthiness (`bool(v)`) of a JSON-decoded value: empty strings,
zero, `False`, `None`, empty lists and empty dicts are falsy. -/
def truthy : JsonValue → Bool
  | .str s => !s.isEmpty
  | .num n => n != 0
  | .bool b => b
  | .null => false
  | .arr l => !l.isEmpty
  | .obj l => !l.isEmpty

/-- Truthiness of `data.get(k)`: a missing key yields `None`, which is falsy. -/
def truthyOpt : Option JsonValue → Bool
  | none => false
  | some v => truthy v

/-- Python 2 `repr` of a unicode string: `u'...'`. Escaping of special
characters is not modelled; no claim depends on the exact text. -/
def pyReprStr (s : PyStr) : PyStr :=
  'u' :: Char.ofNat 39 :: s ++ [Char.ofNat 39]

mutual
/-- Python 2 `repr` of a JSON-decoded value (strings print as `u'...'`,
dicts as `OrderedDict([...])`). No claim depends on the exact text, only
on which value is rendered. -/
def pyRepr : JsonValue → PyStr
  | .str s => pyReprStr s
  | .num n => pys (toString n)
  | .bool b => if b then pys "True" else pys "False"
  | .null => pys "None"
  | .arr l => '[' :: pyReprList l ++ [']']
  | .obj l => pys "OrderedDict([" ++ pyReprPairs l ++ pys "])"

/-- Comma-separated `repr`s of the elements of a list. -/
def pyReprList : List JsonValue → PyStr
  | [] => []
  | [v] => pyRepr v
  | v :: vs => pyRepr v ++ ',' :: ' ' :: pyReprList vs

/-- Comma-separated `repr`s of the key-value pairs of a dict. -/
def pyReprPairs : List (PyStr × JsonValue) → PyStr
  | [] => []
  | [kv] => '(' :: pyReprStr kv.1 ++ ',' :: ' ' :: pyRepr kv.2 ++ [')']
  | kv :: kvs => ('(' :: pyReprStr kv.1 ++ ',' :: ' ' :: pyRepr kv.2 ++ [')'])
      ++ ',' :: ' ' :: pyReprPairs kvs
end

/-- Building a Python dict from an ordered list of pairs: keys keep the
position of their first occurrence, a repeated key overwrites the value. -/
def dedupItems (l : List (PyStr × JsonValue)) : List (PyStr × JsonValue) :=
  l.foldl
    (fun acc kv =>
      if acc.any (fun p => p.1 == kv.1) then
        acc.map (fun p => if p.1 == kv.1 then kv else p)
      else acc ++ [kv])
    []

/-- Python `data.get(k)` on a JSON object decoded from a pair list:
`none` models the `None` returned for a missing key. -/
def dictGet (d : List (PyStr × JsonValue)) (k : PyStr) : Option JsonValue :=
  (dedupItems d).lookup k

/-- A `models.Party` record as built by `author_mapper`: the three
components come out of `parse_person`, so each is the raw JSON value
after the `x and x.strip(...)` dance (possibly `None`). The `models`
module is not under `src/`; the record shape follows the spec's
"Party records (type=person, name, email, url)". -/
structure Party where
  ptype : PyStr
  name : JsonValue
  email : JsonValue
  url : JsonValue

/-- A `models.Dependency(name=..., version_constraint=...)` pair.
Modelled from the spec: ordered `name`/`version_constraint` pairs. -/
structure Dependency where
  name : PyStr
  version_constraint : JsonValue

/-- The `PHPComposerPackage` record, restricted to the attributes this
module reads or writes. The base `models.Package` class is not under
`src/`; the attribute defaults (absent scalars, empty sequences, an
empty dependency mapping) are modelled from the spec's data-model
section. `asserted_licenses` holds the `license=` text of each
`models.AssertedLicense` appended, `dependencies` is an insertion-ordered
mapping from dependency kind to the entries of that kind. -/
structure Package where
  location : Option PyStr := none
  metafile_locations : List PyStr := []
  name : Option JsonValue := none
  summary : Option JsonValue := none
  keywords : Option JsonValue := none
  version : Option JsonValue := none
  homepage_url : Option JsonValue := none
  authors : List Party := []
  asserted_licenses : List PyStr := []
  dependencies : List (PyStr × List Dependency) := []
  vcs_tool : Option PyStr := none
  vcs_repository : Option PyStr := none
  support_contacts : List (Option JsonValue) := []
  bug_tracking_url : Option JsonValue := none
  code_view_url : Option JsonValue := none

/-- A freshly constructed `PHPComposerPackage()`. -/
def emptyPackage : Package := {}

/-- One iteration of the `for lic in licenses` loop of `licensing_mapper`:
a string element is appended verbatim (no truthiness check in the source),
any other element is appended as its `repr` when truthy and skipped
otherwise. -/
def licStep (pkg : Package) (lic : JsonValue) : Package :=
  match lic with
  | .str s => { pkg with asserted_licenses := pkg.asserted_licenses ++ [s] }
  | lic =>
    if truthy lic then
      { pkg with asserted_licenses := pkg.asserted_licenses ++ [pyRepr lic] }
    else pkg

/-- `licensing_mapper(licenses, package)`: falsy input is a no-op; a
string is appended as one assertion; a list is walked element by element
with `licStep`; any other value is appended as its `repr`. -/
def licensing_mapper (licenses : JsonValue) (pkg : Package) : Package :=
  if !truthy licenses then pkg
  else
    match licenses with
    | .str s => { pkg with asserted_licenses := pkg.asserted_licenses ++ [s] }
    | .arr els => els.foldl licStep pkg
    | v => { pkg with asserted_licenses := pkg.asserted_licenses ++ [pyRepr v] }

/-- Python `v and v.strip(...)` on the result of `person.get(key)`:
a falsy value (including the `None` of a missing key) is passed through,
a truthy string is stripped with the given strip function, and a truthy
non-string raises `AttributeError` since only strings have `strip`. -/
def pyAndStrip (strip : PyStr → PyStr) : Option JsonValue → Except PyError JsonValue
  | none => .ok .null
  | some v =>
    if truthy v then
      match v with
      | .str s => .ok (.str (strip s))
      | _ => .error (.attributeError (pys "strip"))
    else .ok v

/-- One person entry of the `authors` list: `person.get` requires a dict
(anything else raises `AttributeError`), then the name is stripped of
whitespace, the email of angle brackets and spaces, the homepage of
parentheses and spaces. -/
def personTuple (person : JsonValue) : Except PyError (JsonValue × JsonValue × JsonValue) :=
  match person with
  | .obj fields => do
    let name ← pyAndStrip pyStrip (dictGet fields (pys "name"))
    let email ← pyAndStrip (pyStripChars (pys "<> ")) (dictGet fields (pys "email"))
    let url ← pyAndStrip (pyStripChars (pys "() ")) (dictGet fields (pys "homepage"))
    return (name, email, url)
  | _ => .error (.attributeError (pys "get"))

/-- `parse_person(persons)`. For a list, yield one tuple per person.
For anything else the source executes
`raise Exception('Incorrect PHP composer composer.json person: %(person)r' % locals())`;
at that point `locals()` binds only `persons` (the loop variable `person`
was never assigned), so the `%`-format lookup of the key `person` raises
`KeyError('person')` before the `Exception` is ever constructed. -/
def parse_person (persons : JsonValue) :
    Except PyError (List (JsonValue × JsonValue × JsonValue)) :=
  match persons with
  | .arr l => l.mapM personTuple
  | _ => .error (.keyError (pys "person"))

/-- `author_mapper(authors_content, package)`: replaces (does not append
to) the package's `authors` with one person-typed `Party` per tuple. -/
def author_mapper (authors_content : JsonValue) (pkg : Package) :
    Except PyError Package :=
  match parse_person authors_content with
  | .error e => .error e
  | .ok tuples =>
    .ok { pkg with
          authors := tuples.map (fun t => Party.mk (pys "person") t.1 t.2.1 t.2.2) }

/-- `support_mapper(support, package)`: `support.get` requires a dict;
the email lands in a singleton `support_contacts` list even when absent. -/
def support_mapper (support : JsonValue) (pkg : Package) : Except PyError Package :=
  match support with
  | .obj fields =>
    .ok { pkg with
          support_contacts := [dictGet fields (pys "email")],
          bug_tracking_url := dictGet fields (pys "issues"),
          code_view_url := dictGet fields (pys "source") }
  | _ => .error (.attributeError (pys "get"))

/-- The `VCS_URLS` tuple of recognized full-URL schemes. -/
def VCS_URLS : List PyStr :=
  [pys "https://", pys "http://", pys "git://", pys "git+git://",
   pys "hg+https://", pys "hg+http://", pys "git+https://", pys "git+http://",
   pys "svn+https://", pys "svn+http://", pys "svn://"]

/-- The Python 2 message of the `ValueError` raised when unpacking
`a, b = xs` and `xs` has fewer than two elements. -/
def unpackMsg : PyStr := pys "need more than 1 value to unpack"

/-- The `host, repo = right.split(':', 1)` step of the `git@` branch of
`parse_repo_url`, with `repo_url` the original string (returned unchanged
for an unrecognized host). A `right` without a colon makes the two-way
unpacking raise `ValueError`. -/
def gitAtHostRepo (repo_url right : PyStr) : Except PyError PyStr :=
  match pySplit1Char ':' right with
  | [host, repo] =>
    if [pys "github", pys "bitbucket", pys "gitlab"].any (fun h => pyIn h host) then
      .ok (pys "https://" ++ host ++ '/' :: repo)
    else .ok repo_url
  | _ => .error (.valueError unpackMsg)

/-- The `git@` branch of `parse_repo_url`:
`left, right = repo_url.split('@', 1)` (which always succeeds when the
string starts with `git@`), then `gitAtHostRepo`. -/
def gitAtCase (repo_url : PyStr) : Except PyError PyStr :=
  match pySplit1Char '@' repo_url with
  | [_left, right] => gitAtHostRepo repo_url right
  | _ => .error (.valueError unpackMsg)

/-- The `hoster_urls` dict of the `bitbucket:`/`gitlab:`/`github:` branch
of `parse_repo_url`. Note that its keys include the trailing colon. -/
def hosterUrls : List (PyStr × (PyStr → PyStr)) :=
  [(pys "bitbucket:", fun repo => pys "https://bitbucket.org/" ++ repo),
   (pys "github:", fun repo => pys "https://github.com/" ++ repo),
   (pys "gitlab:", fun repo => pys "https://gitlab.com/" ++ repo)]

/-- The `bitbucket:`/`gitlab:`/`github:` branch of `parse_repo_url`:
`hoster, repo = repo_url.split(':', 1)` strips the colon off the hoster,
then `hoster_urls[hoster]` is looked up — a missing key raises `KeyError`. -/
def hosterCase (repo_url : PyStr) : Except PyError PyStr :=
  match pySplit1Char ':' repo_url with
  | [hoster, repo] =>
    match hosterUrls.lookup hoster with
    | some template => .ok (template repo)
    | none => .error (.keyError hoster)
  | _ => .error (.valueError unpackMsg)

/-- `parse_repo_url(repo_url)`: full URLs pass through; `git@host:path`
is rewritten for known hosts; `gist:` passes through; the hoster-shortcut
branch consults `hoster_urls`; a string splitting on `/` into exactly two
parts is treated as a GitHub `owner/repo` shorthand; anything else passes
through. -/
def parse_repo_url (repo_url : PyStr) : Except PyError PyStr :=
  if VCS_URLS.any (fun p => pyStartsWith p repo_url) then .ok repo_url
  else if pyStartsWith (pys "git@") repo_url then gitAtCase repo_url
  else if pyStartsWith (pys "gist:") repo_url then .ok repo_url
  else if pyStartsWith (pys "bitbucket:") repo_url
       || pyStartsWith (pys "gitlab:") repo_url
       || pyStartsWith (pys "github:") repo_url then hosterCase repo_url
  else if (pySplitChar '/' repo_url).length = 2 then
    .ok (pys "https://github.com/" ++ repo_url)
  else .ok repo_url

/-- Python `repo.get('type') == 'vcs'`: true exactly when the element is
a dict whose `type` value is the string `vcs` (comparison with a missing
key's `None` or a non-string value is simply unequal). -/
def isVcsDesc : JsonValue → Bool
  | .obj fields =>
    match dictGet fields (pys "type") with
    | some (.str s) => s == pys "vcs"
    | _ => false
  | _ => false

/-- The `vcs_tool` classification of `repository_mapper`: by the leading
prefix of the raw URL, defaulting to `git`. -/
def vcsToolOf (u : PyStr) : PyStr :=
  if pyStartsWith (pys "svn") u then pys "svn"
  else if pyStartsWith (pys "hg") u then pys "hg"
  else if pyStartsWith (pys "cvs") u then pys "cvs"
  else pys "git"

/-- One iteration of the `for repo in repos` loop of `repository_mapper`.
A non-dict element fails at `repo.get`; a `vcs`-typed descriptor whose
`url` is absent or not a string fails at `repo_url.startswith` (the
source sets `vcs_tool` before calling `parse_repo_url`, but a raised
error abandons the record, so the intermediate state is not observable). -/
def processRepo (pkg : Package) (repo : JsonValue) : Except PyError Package :=
  match repo with
  | .obj fields =>
    if isVcsDesc (.obj fields) then
      match dictGet fields (pys "url") with
      | some (.str u) =>
        match parse_repo_url u with
        | .ok v =>
          .ok { pkg with vcs_tool := some (vcsToolOf u), vcs_repository := some v }
        | .error e => .error e
      | _ => .error (.attributeError (pys "startswith"))
    else .ok pkg
  | _ => .error (.attributeError (pys "get"))

/-- The `for repo in repos` loop of `repository_mapper`, threading the
record left to right and propagating the first raised error. -/
def processRepoList : Package → List JsonValue → Except PyError Package
  | pkg, [] => .ok pkg
  | pkg, r :: rest =>
    match processRepo pkg r with
    | .ok p => processRepoList p rest
    | .error e => .error e

/-- `repository_mapper(repos, package)`: falsy input is a no-op, a string
is resolved as a single URL, a list is walked descriptor by descriptor,
and any other type falls through both `isinstance` checks unchanged. -/
def repository_mapper (repos : JsonValue) (pkg : Package) : Except PyError Package :=
  if !truthy repos then .ok pkg
  else
    match repos with
    | .str s =>
      match parse_repo_url s with
      | .ok v => .ok { pkg with vcs_repository := some v }
      | .error e => .error e
    | .arr l => processRepoList pkg l
    | _ => .ok pkg

/-- The `dep_types` dict of `deps_mapper`, mapping the bound `field_name`
to the dependency-kind constant. The `models.dep_runtime`/`models.dep_dev`
constants are not under `src/`; their values are modelled from the spec's
"mapping from dependency-kind (runtime | dev)". Only their distinctness
matters. -/
def dep_types : List (PyStr × PyStr) :=
  [(pys "dependencies", pys "runtime"), (pys "devDependencies", pys "dev")]

/-- Setting `package.dependencies[k]`: `if k in package.dependencies:`
extend the entry in place, `else` insert a new key at the end — Python
dict semantics on an insertion-ordered association list. -/
def depSet (d : List (PyStr × List Dependency)) (k : PyStr) (new : List Dependency) :
    List (PyStr × List Dependency) :=
  match d with
  | [] => [(k, new)]
  | (k1, v1) :: rest =>
    if k1 == k then (k1, v1 ++ new) :: rest
    else (k1, v1) :: depSet rest k new

/-- Reading `package.dependencies[k]` as an optional lookup. -/
def depLookup (d : List (PyStr × List Dependency)) (k : PyStr) : Option (List Dependency) :=
  match d with
  | [] => none
  | (k1, v) :: rest => if k1 == k then some v else depLookup rest k

/-- `deps_mapper(deps, package, field_name)`: resolve the kind through
`dep_types` (a `KeyError` for any other name), build one `Dependency` per
item of the mapping in insertion order, and extend-or-create the entry of
that kind. A non-dict `deps` fails at `deps.items()`. -/
def deps_mapper (deps : JsonValue) (pkg : Package) (field_name : PyStr) :
    Except PyError Package :=
  match dep_types.lookup field_name with
  | none => .error (.keyError field_name)
  | some resolved_type =>
    match deps with
    | .obj fields =>
      let dependencies := (dedupItems fields).map (fun p => Dependency.mk p.1 p.2)
      .ok { pkg with dependencies := depSet pkg.dependencies resolved_type dependencies }
    | _ => .error (.attributeError (pys "items"))

/-- The `dependencies_mapper` specialization: `deps_mapper` with the field name bound to `dependencies`. -/
def dependencies_mapper (deps : JsonValue) (pkg : Package) : Except PyError Package :=
  deps_mapper deps pkg (pys "dependencies")

/-- The `dev_dependencies_mapper` specialization: `deps_mapper` with the field name bound to `devDependencies`. -/
def dev_dependencies_mapper (deps : JsonValue) (pkg : Package) : Except PyError Package :=
  deps_mapper deps pkg (pys "devDependencies")

/-- The `plain_fields` table of `parse`: manifest key to attribute name. -/
def plain_fields : List (PyStr × PyStr) :=
  [(pys "name", pys "name"),
   (pys "description", pys "summary"),
   (pys "keywords", pys "keywords"),
   (pys "version", pys "version"),
   (pys "homepage", pys "homepage_url")]

/-- `setattr(package, target, value)` for the attribute names reachable
through `plain_fields`. -/
def setPlainField (pkg : Package) (target : PyStr) (value : JsonValue) : Package :=
  if target == pys "name" then { pkg with name := some value }
  else if target == pys "summary" then { pkg with summary := some value }
  else if target == pys "keywords" then { pkg with keywords := some value }
  else if target == pys "version" then { pkg with version := some value }
  else if target == pys "homepage_url" then { pkg with homepage_url := some value }
  else pkg

/-- The `for source, target in plain_fields.items()` loop of `parse`:
a present truthy value is stripped when it is a string and assigned when
still truthy. -/
def applyPlainFields (data : List (PyStr × JsonValue)) (pkg : Package) : Package :=
  plain_fields.foldl
    (fun pkg st =>
      match dictGet data st.1 with
      | none => pkg
      | some v =>
        if truthy v then
          let v := match v with | .str s => .str (pyStrip s) | v => v
          if truthy v then setPlainField pkg st.2 v else pkg
        else pkg)
    pkg

/-- The `field_mappers` table of `parse`: manifest key to mapper function
(with `licensing_mapper`, which cannot raise, lifted into `Except`). -/
def field_mappers : List (PyStr × (JsonValue → Package → Except PyError Package)) :=
  [(pys "authors", author_mapper),
   (pys "license", fun v pkg => .ok (licensing_mapper v pkg)),
   (pys "require", dependencies_mapper),
   (pys "require-dev", dev_dependencies_mapper),
   (pys "repositories", repository_mapper),
   (pys "support", support_mapper)]

/-- The `for source, func in field_mappers.items()` loop of `parse`:
same presence/strip/truthiness gate as the plain fields, then the mapper
runs and may raise. -/
def applyFieldMappers (data : List (PyStr × JsonValue)) (pkg : Package) :
    Except PyError Package :=
  field_mappers.foldlM
    (fun pkg sf =>
      match dictGet data sf.1 with
      | none => pure pkg
      | some v =>
        if truthy v then
          let v := match v with | .str s => .str (pyStrip s) | v => v
          if truthy v then sf.2 v pkg else pure pkg
        else pure pkg)
    pkg

/-- `parse(location)`. The filesystem recognizer and the UTF-8/JSON
decoder are external collaborators and enter as parameters: `is_composer`
is the result of `is_phpcomposer_json(location)`, `base_dir` the result
of `fileutils.parent_directory(location)`, and `decoded` the outcome of
`json.load` (whose failure the source does not catch). A rejected path
returns `none` before the file is ever read; decoded data must be a JSON
object for `data.get` to exist; a falsy `name` or `description` returns
`none`; otherwise the record is populated and the mappers run. -/
def parse (is_composer : Bool) (base_dir location : PyStr)
    (decoded : Except PyError JsonValue) : Except PyError (Option Package) :=
  if !is_composer then .ok none
  else
    match decoded with
    | .error e => .error e
    | .ok data =>
      match data with
      | .obj fields =>
        if !truthyOpt (dictGet fields (pys "name"))
           || !truthyOpt (dictGet fields (pys "description")) then .ok none
        else
          let pkg := { emptyPackage with
                       location := some base_dir,
                       metafile_locations := [location],
                       version := dictGet fields (pys "version") }
          let pkg := applyPlainFields fields pkg
          match applyFieldMappers fields pkg with
          | .ok pkg => .ok (some pkg)
          | .error e => .error e
      | _ => .error (.attributeError (pys "get"))

/-- Whether a `parse` outcome delivered a package record. -/
def returnsPackage : Except PyError (Option Package) → Bool
  | .ok (some _) => true
  | _ => false

/-- The license text the claim says one list element contributes:
a string verbatim, a truthy non-string as its textual representation,
a falsy non-string skipped. -/
def licElemEntry : JsonValue → Option PyStr
  | .str s => some s
  | v => if truthy v then some (pyRepr v) else none

/-- The sequence of license texts the amended claim C5 says
`licensing_mapper` appends for a given raw `license` value. -/
def licenseEntries (v : JsonValue) : List PyStr :=
  if truthy v then
    match v with
    | .str s => [s]
    | .arr els => els.filterMap licElemEntry
    | v => [pyRepr v]
  else []

/-- The last element of a `repositories` list that `repository_mapper`
treats as a `vcs` descriptor, if any (the claim's "last matching
descriptor wins"). -/
def lastVcs : List JsonValue → Option JsonValue
  | [] => none
  | r :: rest =>
    match lastVcs rest with
    | some d => some d
    | none => if isVcsDesc r then some r else none

/-- Splitting with maxsplit 1 on a character that does not occur yields
the whole string as the single part. -/
theorem pySplit1Char_not_mem (c : Char) :
    ∀ (s : PyStr), c ∉ s → pySplit1Char c s = [s]
  | [], _ => rfl
  | x :: xs, h => by
    have hx : ¬ x = c := fun hc => h (hc ▸ List.mem_cons_self x xs)
    have hxs : c ∉ xs := fun hm => h (List.mem_cons_of_mem x hm)
    simp only [pySplit1Char, if_neg hx, pySplit1Char_not_mem c xs hxs]

/-- Claim C2: the spec's URL-resolution table. Five of the six rows hold,
but `github:foo/bar` does not resolve: the source splits the shortcut on
the colon into `github` and looks that up in a dict whose keys are
`bitbucket:`, `github:`, `gitlab:` with the colon included, so the
lookup raises `KeyError` instead of producing `https://github.com/foo/bar`
as the claim (and the function's own docstring) states. -/
theorem claim_C2_eval :
    parse_repo_url (pys "git@github.com:balderdashy/waterline-criteria.git")
        = .ok (pys "https://github.com/balderdashy/waterline-criteria.git")
    ∧ parse_repo_url (pys "gist:11081aaa281") = .ok (pys "gist:11081aaa281")
    ∧ parse_repo_url (pys "github:foo/bar") = .error (.keyError (pys "github"))
    ∧ parse_repo_url (pys "expressjs/serve-static")
        = .ok (pys "https://github.com/expressjs/serve-static")
    ∧ parse_repo_url (pys "https://github.com/chaijs/chai")
        = .ok (pys "https://github.com/chaijs/chai")
    ∧ parse_repo_url (pys "git@unknownhost.com:foo/bar.git")
        = .ok (pys "git@unknownhost.com:foo/bar.git") :=
  ⟨rfl, rfl, rfl, rfl, rfl, rfl⟩

/-- Claim C7: for a non-list `authors` value the author mapper does fail
rather than silently producing no authors, but not as the claim states:
the source's `raise Exception('... %(person)r' % locals())` formats with
the undefined name `person` (only `persons` is in scope), so the
`%`-format lookup raises `KeyError('person')` and the offending value is
not carried in the error. Shown here for every string-valued `authors`. -/
theorem claim_C7_eval (pkg : Package) (s : PyStr) :
    author_mapper (.str s) pkg = .error (.keyError (pys "person")) := rfl

/-- Claim C8: when the file is recognized as a manifest but decoding its
contents fails, `parse` propagates that failure unchanged — it is never
swallowed and never turned into an absent result. -/
theorem claim_C8 (e : PyError) (base_dir location : PyStr) :
    parse true base_dir location (.error e) = .error e := rfl

/-- Claim C9: an input starting with `git@` whose remainder after the `@`
contains no colon makes `parse_repo_url` raise: the two-way unpacking of
`right.split(':', 1)` fails with `ValueError` instead of the string being
returned unchanged. -/
theorem claim_C9 (s : PyStr) (h : ':' ∉ s) :
    parse_repo_url ('g' :: 'i' :: 't' :: '@' :: s)
      = .error (.valueError unpackMsg) := by
  have e1 : parse_repo_url ('g' :: 'i' :: 't' :: '@' :: s)
      = gitAtHostRepo ('g' :: 'i' :: 't' :: '@' :: s) s := rfl
  rw [e1, gitAtHostRepo, pySplit1Char_not_mem ':' s h]

/-- Concrete instance of claim C9: `git@github.com` raises `ValueError`. -/
theorem claim_C9_witness :
    ':' ∉ pys "github.com"
    ∧ parse_repo_url ('g' :: 'i' :: 't' :: '@' :: pys "github.com")
        = .error (.valueError unpackMsg) :=
  ⟨by decide, claim_C9 (pys "github.com") (by decide)⟩

/-- Claim C1 fails as stated: a `name` that is whitespace-only is empty
after trimming, so the claim demands an absent result, but the source
guard `not data.get('name')` tests truthiness of the untrimmed value, so
this manifest yields a package record. -/
theorem claim_C1_counterexample :
    returnsPackage (parse true (pys "/p") (pys "/p/composer.json")
      (.ok (.obj [(pys "name", .str (pys "   ")),
                  (pys "description", .str (pys "d"))]))) = true := rfl

/-- Claim C1 as amended: `parse` returns an absent result (never an
error) whenever `name` or `description` is missing or its raw value is
falsy — i.e. empty before any trimming; whitespace-only values pass the
guard. -/
theorem claim_C1_amended (base_dir location : PyStr)
    (data : List (PyStr × JsonValue))
    (h : truthyOpt (dictGet data (pys "name")) = false
         ∨ truthyOpt (dictGet data (pys "description")) = false) :
    parse true base_dir location (.ok (.obj data)) = .ok none := by
  rcases h with h | h <;> simp [parse, h]

/-- Concrete instance of amended claim C1: an empty manifest object has
no `name`, so `parse` returns an absent result. -/
theorem claim_C1_witness :
    truthyOpt (dictGet [] (pys "name")) = false
    ∧ parse true (pys "/p") (pys "/p/composer.json") (.ok (.obj [])) = .ok none :=
  ⟨rfl, claim_C1_amended (pys "/p") (pys "/p/composer.json") [] (Or.inl rfl)⟩

/-- Claim C3 fails as stated: `foo/` splits on `/` into a non-empty and
an empty segment, so the claim demands it pass through unchanged, but the
source only counts the segments (`len(repo_url.split('/')) == 2`) and
rewrites it to a GitHub URL. -/
theorem claim_C3_counterexample :
    parse_repo_url (pys "foo/") = .ok (pys "https://github.com/foo/")
    ∧ pys "https://github.com/foo/" ≠ pys "foo/" :=
  ⟨rfl, by decide⟩

/-- Claim C3 as amended: for inputs matching none of the earlier rules,
the fallthrough rewrites to `https://github.com/` followed by the string
exactly when splitting on `/` yields exactly two segments, empty segments
included; every other such string passes through unchanged. -/
theorem claim_C3_amended (s : PyStr)
    (h1 : VCS_URLS.any (fun p => pyStartsWith p s) = false)
    (h2 : pyStartsWith (pys "git@") s = false)
    (h3 : pyStartsWith (pys "gist:") s = false)
    (h4 : pyStartsWith (pys "bitbucket:") s = false)
    (h5 : pyStartsWith (pys "gitlab:") s = false)
    (h6 : pyStartsWith (pys "github:") s = false) :
    parse_repo_url s =
      if (pySplitChar '/' s).length = 2 then .ok (pys "https://github.com/" ++ s)
      else .ok s := by
  simp [parse_repo_url, h1, h2, h3, h4, h5, h6]

/-- Concrete instance of amended claim C3: `foo/bar` matches no earlier
rule, splits into two segments and resolves to the GitHub URL. -/
theorem claim_C3_witness :
    parse_repo_url (pys "foo/bar") =
      (if (pySplitChar '/' (pys "foo/bar")).length = 2
       then .ok (pys "https://github.com/" ++ pys "foo/bar")
       else .ok (pys "foo/bar")) :=
  claim_C3_amended (pys "foo/bar") rfl rfl rfl rfl rfl rfl

/-- Folding the per-element license step accumulates exactly the entries
described by `licElemEntry`, element by element, and touches no other
field of the record. -/
theorem licStep_foldl (els : List JsonValue) (pkg : Package) :
    els.foldl licStep pkg
      = { pkg with asserted_licenses :=
            pkg.asserted_licenses ++ els.filterMap licElemEntry } := by
  induction els generalizing pkg with
  | nil => simp
  | cons e els ih =>
    rw [List.foldl_cons, ih]
    cases e with
    | str s => simp [licStep, licElemEntry]
    | num n =>
      cases ht : truthy (.num n) <;> simp [licStep, licElemEntry, ht]
    | bool b =>
      cases ht : truthy (.bool b) <;> simp [licStep, licElemEntry, ht]
    | null =>
      cases ht : truthy .null <;> simp [licStep, licElemEntry, ht]
    | arr l =>
      cases ht : truthy (.arr l) <;> simp [licStep, licElemEntry, ht]
    | obj l =>
      cases ht : truthy (.obj l) <;> simp [licStep, licElemEntry, ht]

/-- Claim C5 fails as stated: applied to the empty string (a string
value, but falsy) the license mapper appends nothing — the `if not
licenses: return package` guard fires — whereas the claim demands exactly
one assertion equal to that string. -/
theorem claim_C5_counterexample :
    (licensing_mapper (.str []) emptyPackage).asserted_licenses = []
    ∧ (licensing_mapper (.str []) emptyPackage).asserted_licenses
        ≠ emptyPackage.asserted_licenses ++ [[]] :=
  ⟨rfl, by decide⟩

/-- Claim C5 as amended: a falsy `license` value (empty string, empty
list, zero, `False`, `None`, empty object) leaves the record unchanged;
a non-empty string appends exactly that one assertion; a list appends,
in order, each string element verbatim and each truthy non-string element
as its textual representation, skipping falsy non-string elements; any
other truthy value appends a single assertion holding its textual
representation. No other field changes. -/
theorem claim_C5_amended (pkg : Package) (v : JsonValue) :
    licensing_mapper v pkg
      = { pkg with asserted_licenses :=
            pkg.asserted_licenses ++ licenseEntries v } := by
  cases ht : truthy v
  · cases v <;> simp_all [licensing_mapper, licenseEntries]
  · cases v <;> simp_all [licensing_mapper, licenseEntries, licStep_foldl]

/-- Extending the dependency mapping at a kind appends the new entries
after any existing entries of that kind. -/
theorem depLookup_depSet_self (d : List (PyStr × List Dependency)) (k : PyStr)
    (new : List Dependency) :
    depLookup (depSet d k new) k = some ((depLookup d k).getD [] ++ new) := by
  induction d with
  | nil => simp [depSet, depLookup]
  | cons kv rest ih =>
    obtain ⟨k1, v1⟩ := kv
    cases hk : k1 == k
    · simp [depSet, depLookup, hk, ih]
    · simp [depSet, depLookup, hk]

/-- Extending the dependency mapping at one kind leaves every other kind
untouched. -/
theorem depLookup_depSet_other (d : List (PyStr × List Dependency)) (k q : PyStr)
    (new : List Dependency) (hne : (k == q) = false) :
    depLookup (depSet d k new) q = depLookup d q := by
  induction d with
  | nil => simp [depSet, depLookup, hne]
  | cons kv rest ih =>
    obtain ⟨k1, v1⟩ := kv
    cases hk : k1 == k
    · simp [depSet, depLookup, hk, ih]
    · have hq : (k1 == q) = false := by
        have hkk : k1 = k := eq_of_beq hk
        rw [hkk]; exact hne
      simp [depSet, depLookup, hk, hq]

/-- Claim C6: dependency mapping is append-only per kind. Mapping a
`require` batch and then a `require-dev` batch on the same record leaves
the runtime entries of the first call intact after the second, and each
call appends its batch after whatever its kind already held. -/
theorem claim_C6 (pkg pkg1 pkg2 : Package) (r d : List (PyStr × JsonValue))
    (h1 : dependencies_mapper (.obj r) pkg = .ok pkg1)
    (h2 : dev_dependencies_mapper (.obj d) pkg1 = .ok pkg2) :
    depLookup pkg2.dependencies (pys "runtime")
        = depLookup pkg1.dependencies (pys "runtime")
    ∧ depLookup pkg1.dependencies (pys "runtime")
        = some ((depLookup pkg.dependencies (pys "runtime")).getD []
            ++ (dedupItems r).map (fun p => Dependency.mk p.1 p.2))
    ∧ depLookup pkg2.dependencies (pys "dev")
        = some ((depLookup pkg1.dependencies (pys "dev")).getD []
            ++ (dedupItems d).map (fun p => Dependency.mk p.1 p.2)) := by
  have key1 : dependencies_mapper (.obj r) pkg
      = .ok { pkg with dependencies :=
          (depSet pkg.dependencies (pys "runtime")
            ((dedupItems r).map (fun p => Dependency.mk p.1 p.2))) } := rfl
  have key2 : dev_dependencies_mapper (.obj d) pkg1
      = .ok { pkg1 with dependencies :=
          (depSet pkg1.dependencies (pys "dev")
            ((dedupItems d).map (fun p => Dependency.mk p.1 p.2))) } := rfl
  rw [key1] at h1
  rw [key2] at h2
  injection h1 with h1
  injection h2 with h2
  rw [← h2, ← h1]
  refine ⟨?_, ?_, ?_⟩
  · exact depLookup_depSet_other _ _ _ _ (by decide)
  · exact depLookup_depSet_self _ _ _
  · exact depLookup_depSet_self _ _ _

/-- The record after mapping `require` of one entry onto a fresh package. -/
def pkgReqOnly : Package :=
  { emptyPackage with dependencies :=
      [(pys "runtime", [Dependency.mk (pys "a") (.str (pys "^1.0"))])] }

/-- The record after additionally mapping `require-dev` of one entry. -/
def pkgReqDev : Package :=
  { emptyPackage with dependencies :=
      [(pys "runtime", [Dependency.mk (pys "a") (.str (pys "^1.0"))]),
       (pys "dev", [Dependency.mk (pys "b") (.str (pys "^2.0"))])] }

/-- Concrete instance of claim C6: mapping `require` with one entry and
then `require-dev` with one entry keeps both kinds, each with its entry. -/
theorem claim_C6_witness :
    depLookup pkgReqDev.dependencies (pys "runtime")
        = depLookup pkgReqOnly.dependencies (pys "runtime")
    ∧ depLookup pkgReqOnly.dependencies (pys "runtime")
        = some ((depLookup emptyPackage.dependencies (pys "runtime")).getD []
            ++ (dedupItems [(pys "a", JsonValue.str (pys "^1.0"))]).map
                (fun p => Dependency.mk p.1 p.2))
    ∧ depLookup pkgReqDev.dependencies (pys "dev")
        = some ((depLookup pkgReqOnly.dependencies (pys "dev")).getD []
            ++ (dedupItems [(pys "b", JsonValue.str (pys "^2.0"))]).map
                (fun p => Dependency.mk p.1 p.2)) :=
  claim_C6 emptyPackage pkgReqOnly pkgReqDev
    [(pys "a", JsonValue.str (pys "^1.0"))] [(pys "b", JsonValue.str (pys "^2.0"))]
    rfl rfl

/-- A descriptor the mapper does not treat as `vcs`-typed leaves the
record unchanged when its processing succeeds. -/
theorem processRepo_ok_not_vcs (pkg p : Package) (r : JsonValue)
    (h : processRepo pkg r = .ok p) (hv : isVcsDesc r = false) : p = pkg := by
  cases r <;> simp_all [processRepo]

/-- A successfully processed `vcs`-typed descriptor has a string URL that
resolves, and the record comes back with exactly the classified tool and
the resolved URL set. -/
theorem processRepo_ok_vcs (pkg p : Package) (fields : List (PyStr × JsonValue))
    (h : processRepo pkg (.obj fields) = .ok p) (hv : isVcsDesc (.obj fields) = true) :
    ∃ u v, dictGet fields (pys "url") = some (.str u) ∧ parse_repo_url u = .ok v
      ∧ p = { pkg with vcs_tool := some (vcsToolOf u), vcs_repository := some v } := by
  cases hu : dictGet fields (pys "url") with
  | none => simp [processRepo, hv, hu] at h
  | some w =>
    cases w with
    | str u =>
      cases hp : parse_repo_url u with
      | error e => simp [processRepo, hv, hu, hp] at h
      | ok v =>
        simp only [processRepo, hv, hu, hp, if_true] at h
        injection h with h
        exact ⟨u, v, rfl, hp, h.symm⟩
    | num n => simp [processRepo, hv, hu] at h
    | bool b => simp [processRepo, hv, hu] at h
    | null => simp [processRepo, hv, hu] at h
    | arr l => simp [processRepo, hv, hu] at h
    | obj l => simp [processRepo, hv, hu] at h

/-- A repository list without any `vcs`-typed descriptor leaves the
record unchanged when the loop succeeds. -/
theorem processRepoList_no_vcs : ∀ (l : List JsonValue) (pkg q : Package),
    lastVcs l = none → processRepoList pkg l = .ok q → q = pkg
  | [], pkg, q, _, h => by
    simp only [processRepoList] at h
    injection h with h
    exact h.symm
  | r :: rest, pkg, q, hl, h => by
    have h1 : lastVcs rest = none := by
      cases hr : lastVcs rest with
      | none => rfl
      | some d => simp [lastVcs, hr] at hl
    have h2 : isVcsDesc r = false := by
      cases hv : isVcsDesc r with
      | false => rfl
      | true => simp [lastVcs, h1, hv] at hl
    simp only [processRepoList] at h
    cases hp : processRepo pkg r with
    | error e => simp [hp] at h
    | ok p =>
      simp only [hp] at h
      have hpp : p = pkg := processRepo_ok_not_vcs pkg p r hp h2
      exact (processRepoList_no_vcs rest p q h1 h).trans hpp

/-- When the last `vcs`-typed descriptor of a repository list carries a
string URL, a successful loop ends with exactly that descriptor's
classification and resolution on the record, whatever came before. -/
theorem processRepoList_last_vcs : ∀ (l : List JsonValue) (pkg q : Package)
    (fields : List (PyStr × JsonValue)) (u : PyStr),
    lastVcs l = some (.obj fields) →
    dictGet fields (pys "url") = some (.str u) →
    processRepoList pkg l = .ok q →
    ∃ v, parse_repo_url u = .ok v
      ∧ q = { pkg with vcs_tool := some (vcsToolOf u), vcs_repository := some v }
  | [], _, _, _, _, hl, _, _ => by simp [lastVcs] at hl
  | r :: rest, pkg, q, fields, u, hl, hu, h => by
    simp only [processRepoList] at h
    cases hp : processRepo pkg r with
    | error e => simp [hp] at h
    | ok p =>
      simp only [hp] at h
      cases hr : lastVcs rest with
      | some d =>
        have hd : d = .obj fields := by
          simp only [lastVcs, hr] at hl
          injection hl
        rw [hd] at hr
        obtain ⟨v, hv, hq⟩ := processRepoList_last_vcs rest p q fields u hr hu h
        cases hvd : isVcsDesc r with
        | false =>
          have hpp : p = pkg := processRepo_ok_not_vcs pkg p r hp hvd
          exact ⟨v, hv, by rw [hq, hpp]⟩
        | true =>
          cases r with
          | obj f2 =>
            obtain ⟨u2, v2, _, _, hp2⟩ := processRepo_ok_vcs pkg p f2 hp hvd
            exact ⟨v, hv, by rw [hq, hp2]⟩
          | str s => simp [isVcsDesc] at hvd
          | num n => simp [isVcsDesc] at hvd
          | bool b => simp [isVcsDesc] at hvd
          | null => simp [isVcsDesc] at hvd
          | arr l2 => simp [isVcsDesc] at hvd
      | none =>
        have hvd : isVcsDesc r = true := by
          cases hv2 : isVcsDesc r with
          | true => rfl
          | false => simp [lastVcs, hr, hv2] at hl
        have hrf : r = .obj fields := by
          simp only [lastVcs, hr, hvd] at hl
          injection hl
        subst hrf
        obtain ⟨u2, v2, hu2, hv2, hp2⟩ := processRepo_ok_vcs pkg p fields hp hvd
        rw [hu] at hu2
        injection hu2 with hu2
        injection hu2 with hu2
        have hq : q = p := processRepoList_no_vcs rest p q hr h
        rw [← hu2] at hp2
        exact ⟨v2, by rw [← hu2] at hv2; exact hv2, by rw [hq, hp2]⟩

/-- Claim C4: the repository mapper on a list only reacts to `vcs`-typed
descriptors. If the list has none, a successful run leaves the record
unchanged; otherwise the last `vcs`-typed descriptor alone determines the
outcome: `vcs_tool` is classified from its raw URL's leading prefix
(svn, hg, cvs, default git via `vcsToolOf`) and `vcs_repository` is its
resolved URL. -/
theorem claim_C4 :
    (∀ (pkg q : Package) (l : List JsonValue),
       repository_mapper (.arr l) pkg = .ok q → lastVcs l = none → q = pkg)
    ∧ (∀ (pkg q : Package) (l : List JsonValue)
         (fields : List (PyStr × JsonValue)) (u : PyStr),
       repository_mapper (.arr l) pkg = .ok q →
       lastVcs l = some (.obj fields) →
       dictGet fields (pys "url") = some (.str u) →
       ∃ v, parse_repo_url u = .ok v
         ∧ q = { pkg with vcs_tool := some (vcsToolOf u), vcs_repository := some v }) := by
  constructor
  · intro pkg q l h hl
    cases l with
    | nil =>
      simp only [repository_mapper, truthy] at h
      injection h with h
      exact h.symm
    | cons r rest =>
      have e : repository_mapper (.arr (r :: rest)) pkg
          = processRepoList pkg (r :: rest) := rfl
      rw [e] at h
      exact processRepoList_no_vcs (r :: rest) pkg q hl h
  · intro pkg q l fields u h hl hu
    cases l with
    | nil => simp [lastVcs] at hl
    | cons r rest =>
      have e : repository_mapper (.arr (r :: rest)) pkg
          = processRepoList pkg (r :: rest) := rfl
      rw [e] at h
      exact processRepoList_last_vcs (r :: rest) pkg q fields u hl hu h

/-- A `vcs`-typed descriptor with an `svn`-prefixed URL, for the claim C4
instance. -/
def descSvn : JsonValue :=
  .obj [(pys "type", .str (pys "vcs")), (pys "url", .str (pys "svn://example.org/repo"))]

/-- The record the repository mapper produces from `descSvn`. -/
def pkgSvn : Package :=
  { emptyPackage with
    vcs_tool := some (pys "svn"),
    vcs_repository := some (pys "svn://example.org/repo") }

/-- Concrete instance of claim C4: one `vcs` descriptor with an
`svn://` URL sets `vcs_tool` to svn and `vcs_repository` to the resolved
(unchanged, full-scheme) URL. -/
theorem claim_C4_witness :
    ∃ v, parse_repo_url (pys "svn://example.org/repo") = .ok v
      ∧ pkgSvn = { emptyPackage with
            vcs_tool := some (vcsToolOf (pys "svn://example.org/repo")),
            vcs_repository := some v } :=
  claim_C4.2 emptyPackage pkgSvn [descSvn]
    [(pys "type", .str (pys "vcs")), (pys "url", .str (pys "svn://example.org/repo"))]
    (pys "svn://example.org/repo") rfl rfl rfl

/-- A repository list containing a `vcs`-typed descriptor without a URL
makes the loop raise (the absent URL has no `startswith`), wherever the
descriptor sits. -/
theorem processRepoList_missing_url : ∀ (l : List JsonValue) (pkg : Package)
    (fields : List (PyStr × JsonValue)),
    (JsonValue.obj fields) ∈ l →
    dictGet fields (pys "type") = some (.str (pys "vcs")) →
    dictGet fields (pys "url") = none →
    ∃ e, processRepoList pkg l = .error e
  | [], _, _, hm, _, _ => absurd hm (List.not_mem_nil _)
  | r :: rest, pkg, fields, hm, ht, hu => by
    simp only [processRepoList]
    cases hp : processRepo pkg r with
    | error e => exact ⟨e, by simp [hp]⟩
    | ok p =>
      rcases List.mem_cons.mp hm with heq | hmem
      · exfalso
        rw [← heq] at hp
        have hv : isVcsDesc (.obj fields) = true := by
          simp [isVcsDesc, ht]
        simp [processRepo, hv, hu] at hp
      · obtain ⟨e, he⟩ := processRepoList_missing_url rest p fields hmem ht hu
        exact ⟨e, by simp only [hp]; exact he⟩

/-- Claim C10: a `repositories` list containing a `vcs`-typed descriptor
with no `url` key makes the repository mapper raise an error rather than
skip the descriptor or leave the record unchanged. -/
theorem claim_C10 (l : List JsonValue) (pkg : Package)
    (fields : List (PyStr × JsonValue))
    (hm : (JsonValue.obj fields) ∈ l)
    (ht : dictGet fields (pys "type") = some (.str (pys "vcs")))
    (hu : dictGet fields (pys "url") = none) :
    ∃ e, repository_mapper (.arr l) pkg = .error e := by
  cases l with
  | nil => exact absurd hm (List.not_mem_nil _)
  | cons r rest =>
    have e : repository_mapper (.arr (r :: rest)) pkg
        = processRepoList pkg (r :: rest) := rfl
    rw [e]
    exact processRepoList_missing_url (r :: rest) pkg fields hm ht hu

/-- A `vcs`-typed descriptor with no `url` key, for the claim C10 instance. -/
def descNoUrl : JsonValue := .obj [(pys "type", .str (pys "vcs"))]

/-- Concrete instance of claim C10: a singleton list with a url-less
`vcs` descriptor errors. -/
theorem claim_C10_witness :
    descNoUrl ∈ [descNoUrl]
    ∧ ∃ e, repository_mapper (.arr [descNoUrl]) emptyPackage = .error e :=
  ⟨List.mem_singleton.mpr rfl,
   claim_C10 [descNoUrl] emptyPackage [(pys "type", .str (pys "vcs"))]
     (List.mem_singleton.mpr rfl) rfl rfl⟩

end PhpComposer
